import Mathlib

/-!
Shallow embedding of the CML platform-abstraction layer: the `CML` facade
(`src/cml.js`, here `src/unnamed/part_001`) and the GitHub/GitLab drivers
(`src/src/drivers/github.js`, which contains both the `Github` and the
`Gitlab` class).  JavaScript strings are `String`, fallible calls are
`Except`, absent values are `Option`.  External collaborators (the
platform REST responses, the JSON parser, the clock) are passed in as
explicit arguments.
-/

/-- Model of the JavaScript `String.prototype.includes` on lists of
characters: the pattern occurs as a contiguous run. -/
def jsIncludesAux (pat : List Char) : List Char → Bool
  | [] => pat.isEmpty
  | c :: t => pat.isPrefixOf (c :: t) || jsIncludesAux pat t

/-- Model of the JavaScript `data.includes(pat)` substring test. -/
def jsIncludes (s pat : String) : Bool :=
  jsIncludesAux pat.toList s.toList

/-- Model of the JavaScript `s.endsWith(pat)` suffix test. -/
def jsEndsWith (s pat : String) : Bool :=
  pat.toList.isSuffixOf s.toList

/-- Model of the JavaScript `s.startsWith(pat)` prefix test. -/
def jsStartsWith (s pat : String) : Bool :=
  pat.toList.isPrefixOf s.toList

/-- A value stored in the `job` field of a log event: the GitHub branch of
`parseRunnerLog` stores a string, the GitLab branch stores the number
parsed out of the JSON line. -/
inductive JobField where
  | str (s : String)
  | num (n : Nat)
deriving DecidableEq, Repr

/-- Normalized log event produced by `CML.parseRunnerLog`
(`src/cml.js`).  Fields that the code only sets on some paths are
`Option`s defaulting to `none`, matching the JavaScript object that
starts as `\x7b level, time, repo \x7d` and gains fields per branch. -/
structure LogEvent where
  level : String
  time : String
  repo : String
  job : Option JobField := none
  status : Option String := none
  success : Option Bool := none
deriving DecidableEq, Repr

/-- Result of `JSON.parse` on a GitLab runner log line, restricted to the
two fields the code destructures (`msg`, `job`).  `msg := none` models a
parsed object with no `msg` property, on which `msg.endsWith` throws. -/
structure JsObj where
  msg : Option String
  job : Option JobField
deriving DecidableEq, Repr

/-- Body of the `try` block of `CML.parseRunnerLog` (`src/cml.js`).
`jsonParse` is the external `JSON.parse`, returning `none` when it would
throw; a thrown exception is an `Except.error`.  An absent `msg` field
makes `msg.endsWith` throw, also an `Except.error`.  The leading
`if (!data) return;` is the empty-string guard. -/
def parseRunnerLogTry (driver repo time : String)
    (jsonParse : String → Option JsObj) (data : String) :
    Except String (Option LogEvent) :=
  if data = "" then .ok none
  else
    let log : LogEvent := { level := "info", time := time, repo := repo }
    if driver = "github" then
      if jsIncludes data "Running job" then
        .ok (some { log with job := some (.str ""), status := some "job_started" })
      else if jsIncludes data "Job" && jsIncludes data "completed with result" then
        let success := jsEndsWith data "Succeeded"
        .ok (some { log with job := some (.str ""), status := some "job_ended",
                             success := some success,
                             level := if success then "info" else "error" })
      else if jsIncludes data "Listening for Jobs" then
        .ok (some { log with status := some "ready" })
      else .ok none
    else if driver = "gitlab" then
      match jsonParse data with
      | none => .error "Unexpected token in JSON"
      | some obj =>
        match obj.msg with
        | none => .error "Cannot read property endsWith of undefined"
        | some msg =>
          if jsEndsWith msg "received" then
            .ok (some { log with job := obj.job, status := some "job_started" })
          else if jsStartsWith msg "Job failed" || jsStartsWith msg "Job succeeded" then
            let success := !(jsStartsWith msg "Job failed")
            .ok (some { log with job := obj.job, status := some "job_ended",
                                 success := some success,
                                 level := if success then "info" else "error" })
          else if jsIncludes msg "Starting runner for" then
            .ok (some { log with status := some "ready" })
          else .ok none
    else .ok none

/-- `CML.parseRunnerLog` (`src/cml.js`): the `try` body wrapped in the
`catch` that logs the failure and returns `undefined`. -/
def parseRunnerLog (driver repo time : String)
    (jsonParse : String → Option JsObj) (data : String) : Option LogEvent :=
  match parseRunnerLogTry driver repo time jsonParse data with
  | .ok r => r
  | .error _ => none

/-- The fixed watermark string appended by `CML.commentCreate`
(`src/cml.js`). -/
def watermarkString : String :=
  " \n\n  ![CML watermark](https://raw.githubusercontent.com/iterative/cml/master/assets/watermark.svg)"

/-- The report body that `CML.commentCreate` (`src/cml.js`) passes to the
driver: the caller body with the watermark appended unless
`rmWatermark` is set. -/
def commentCreateReport (userReport : String) (rmWatermark : Bool) : String :=
  let watermark := if rmWatermark then "" else watermarkString
  userReport ++ watermark

/-- The short sha `sha.substr(0, 8)` computed by `CML.prCreate`
(`src/cml.js`). -/
def shaShortOf (sha : String) : String := sha.take 8

/-- The automated source branch name derived in `CML.prCreate`
(`src/cml.js`): the template string composing target, the literal
separator, and the short sha. -/
def prSourceBranch (target sha : String) : String :=
  target ++ "-cml-pr-" ++ shaShortOf sha

/-- Normalized pull/merge request as returned by the drivers `prs`
methods (`src/src/drivers/github.js`). -/
structure Pr where
  url : String
  source : String
  target : String
deriving DecidableEq, Repr

/-- Environment of one `CML.prCreate` run (`src/cml.js`): the results of
the external calls the method makes, in the order it makes them.
`statusFiles` is `(await git.status()).files` mapped to paths, `globbed`
is the `globby(globs)` result, `sha` and `target` are the resolved head
sha and branch, `lsRemoteOut` is the output of the `git ls-remote` probe
for the source branch, `prs` is the open PR list of the driver, and
`driverCreateUrl` is the URL the driver would return from `prCreate`. -/
structure PrEnv where
  statusFiles : List String
  globbed : List String
  sha : String
  target : String
  lsRemoteOut : String
  prs : List Pr
  driverCreateUrl : String

/-- Outcome of one `CML.prCreate` run: the returned value (`none` models
the bare `return` on the two nothing-to-do paths) and whether
`driver.prCreate` was invoked, i.e. whether a new PR was created. -/
structure PrOutcome where
  result : Option String
  prCreated : Bool
deriving DecidableEq, Repr

/-- The `renderPr` closure inside `CML.prCreate` (`src/cml.js`). -/
def renderPr (driver : String) (md : Bool) (url : String) : String :=
  if md then
    "[CML\x27s " ++ (if driver = "gitlab" then "Merge" else "Pull") ++
      " Request](" ++ url ++ ")"
  else url

/-- `CML.prCreate` (`src/cml.js`) as a function of its external
environment.  Mirrors the control flow: empty status short-circuit,
glob-intersection short-circuit, source branch derivation, remote
branch existence probe, open-PR matching by the `endsWith` predicate,
and otherwise branch push plus `driver.prCreate`. -/
def prCreate (driver : String) (md : Bool) (env : PrEnv) : PrOutcome :=
  if env.statusFiles.isEmpty then { result := none, prCreated := false }
  else
    let paths := env.globbed.filter (fun p => env.statusFiles.contains p)
    if paths.isEmpty then { result := none, prCreated := false }
    else
      let source := prSourceBranch env.target env.sha
      let branchExists := jsIncludes env.lsRemoteOut source
      if branchExists then
        match env.prs.find?
            (fun pr => jsEndsWith source pr.source && jsEndsWith env.target pr.target) with
        | some pr => { result := some (renderPr driver md pr.url), prCreated := false }
        | none =>
            { result := some (renderPr driver md env.driverCreateUrl), prCreated := true }
      else
        { result := some (renderPr driver md env.driverCreateUrl), prCreated := true }

/-- Label object of a GitHub runner as the REST API returns it: the code
reads `label.name` (`src/src/drivers/github.js`). -/
structure GhLabel where
  name : String
deriving DecidableEq, Repr

/-- GitHub self-hosted runner as listed by the platform
(`src/src/drivers/github.js`). -/
structure GhRunner where
  id : Nat
  name : String
  labels : List GhLabel
deriving DecidableEq, Repr

/-- GitLab runner as listed by the platform: the code reads `id`, `name`
and the legacy `description` field (`src/src/drivers/github.js`,
`Gitlab` class).  `tagList` is the tag set the platform stores for the
runner; the driver never reads it. -/
structure GlRunner where
  id : Nat
  name : String
  description : String
  tagList : List String
deriving DecidableEq, Repr

/-- The `\x7b id, name \x7d` projection both drivers return from their
runner lookups. -/
structure RunnerInfo where
  id : Nat
  name : String
deriving DecidableEq, Repr

/-- `Github.getRunners` (`src/src/drivers/github.js`): one
`listSelfHostedRunnersForRepo`/`ForOrg` call with `per_page: 100` and no
pagination.  The platform response to a single page request is modelled
as the first `per_page` entries of the full platform listing. -/
def githubGetRunners (platformRunners : List GhRunner) : List GhRunner :=
  platformRunners.take 100

/-- `Github.runnerByName` (`src/src/drivers/github.js`): filter the
fetched page on exact name equality and take element `[0]`. -/
def githubRunnerByName (platformRunners : List GhRunner) (name : String) :
    Option RunnerInfo :=
  match (githubGetRunners platformRunners).filter (fun r => r.name == name) with
  | [] => none
  | r :: _ => some { id := r.id, name := r.name }

/-- Model of the JavaScript `labels.split(sep)` for the one-character
separator used by the code: accumulate the current field and start a new
one at every comma. -/
def jsSplitCommaAux : List Char → List Char → List String
  | [], acc => [String.mk acc.reverse]
  | c :: t, acc =>
    if c = ',' then String.mk acc.reverse :: jsSplitCommaAux t []
    else jsSplitCommaAux t (c :: acc)

/-- Model of the JavaScript `labels.split(sep)` with comma separator. -/
def jsSplitComma (s : String) : List String :=
  jsSplitCommaAux s.toList []

/-- `Github.runnersByLabels` (`src/src/drivers/github.js`): split the
requested labels on commas and keep the runners on the fetched page
whose label names include every requested label. -/
def githubRunnersByLabels (platformRunners : List GhRunner) (labels : String) :
    List RunnerInfo :=
  ((githubGetRunners platformRunners).filter
      (fun r => (jsSplitComma labels).all
        (fun label => (r.labels.map GhLabel.name).contains label))).map
    (fun r => { id := r.id, name := r.name })

/-- The single runner-listing request of `Gitlab.runnerByName` and
`Gitlab.runnersByLabels` (`src/src/drivers/github.js`, `Gitlab` class):
`/runners?per_page=100` with no pagination, so the platform returns the
first hundred entries of its listing.  In `runnersByLabels` the endpoint
is `/runners?per_page=100?tag_list=...`: the second `?` is not a query
separator, so `tag_list` is never transmitted as a parameter and the
listing is not label-filtered by the platform either. -/
def gitlabListRunners (platformRunners : List GlRunner) : List GlRunner :=
  platformRunners.take 100

/-- `Gitlab.runnerByName` (`src/src/drivers/github.js`): filter on name
or legacy description equality and take element `[0]`. -/
def gitlabRunnerByName (platformRunners : List GlRunner) (name : String) :
    Option RunnerInfo :=
  match (gitlabListRunners platformRunners).filter
      (fun r => r.name == name || r.description == name) with
  | [] => none
  | r :: _ => some { id := r.id, name := r.name }

/-- `Gitlab.runnersByLabels` (`src/src/drivers/github.js`): maps every
runner of the fetched page to `\x7b id, name \x7d`.  No label filter is
applied client-side, and none is applied by the platform because the
malformed query string never transmits `tag_list` (see
`gitlabListRunners`).  The `labels` argument is therefore dead. -/
def gitlabRunnersByLabels (platformRunners : List GlRunner) (labels : String) :
    List RunnerInfo :=
  let _ := labels
  (gitlabListRunners platformRunners).map (fun r => { id := r.id, name := r.name })

/-- A thrown JavaScript error: a `TypeError` from destructuring
`undefined`, or an `Error` constructed with a message. -/
inductive JsError where
  | typeError (msg : String)
  | error (msg : String)
deriving DecidableEq, Repr

/-- The platform delete issued by `Github.unregisterRunner`
(`src/src/drivers/github.js`): repo-scoped or org-scoped depending on
whether the repo component of the uri is defined. -/
inductive GhDelete where
  | fromRepo (owner repo : String) (runnerId : Nat)
  | fromOrg (org : String) (runnerId : Nat)
deriving DecidableEq, Repr

/-- `Github.unregisterRunner` (`src/src/drivers/github.js`): destructure
`\x7b id \x7d` out of the `runnerByName` result — a `TypeError` when the
lookup returned `undefined` — then issue the platform delete with the
resolved id. -/
def githubUnregisterRunner (platformRunners : List GhRunner)
    (owner : String) (repo : Option String) (name : String) :
    Except JsError GhDelete :=
  match githubRunnerByName platformRunners name with
  | none => .error (.typeError "Cannot destructure property id of undefined")
  | some r =>
    match repo with
    | some rp => .ok (.fromRepo owner rp r.id)
    | none => .ok (.fromOrg owner r.id)

/-- `Gitlab.unregisterRunner` (`src/src/drivers/github.js`): destructure
`\x7b id \x7d` out of the `runnerByName` result — a `TypeError` when the
lookup returned `undefined` — then DELETE the `/runners/id` endpoint. -/
def gitlabUnregisterRunner (platformRunners : List GlRunner) (name : String) :
    Except JsError String :=
  match gitlabRunnerByName platformRunners name with
  | none => .error (.typeError "Cannot destructure property id of undefined")
  | some r => .ok ("/runners/" ++ toString r.id)

/-- Inert bag of caller options, standing for the ignored arguments of
the unsupported-capability methods. -/
def JsOpts : Type := List (String × String)

/-- `Github.upload` (`src/src/drivers/github.js`): throws
unconditionally. -/
def githubUpload (opts : JsOpts) : Except JsError Unit :=
  let _ := opts
  .error (.error "Github does not support publish!")

/-- `Github.registerRunner` (`src/src/drivers/github.js`): throws
unconditionally. -/
def githubRegisterRunner (opts : JsOpts) : Except JsError Unit :=
  let _ := opts
  .error (.error "Github does not support registerRunner!")

/-- `Gitlab.checkCreate` (`src/src/drivers/github.js`, `Gitlab` class):
throws unconditionally. -/
def gitlabCheckCreate (opts : JsOpts) : Except JsError Unit :=
  let _ := opts
  .error (.error "Gitlab does not support check!")

/-- Model of the JavaScript `Array.prototype.join` with separator `/`,
as used on `[origin, ...array.slice(0, index)]` in `Gitlab.repoBase`
(`src/src/drivers/github.js`). -/
def joinSlash : List String → String
  | [] => ""
  | [x] => x
  | x :: y :: t => x ++ "/" ++ joinSlash (y :: t)

/-- The candidate API bases probed by `Gitlab.repoBase`: for every index
of the non-empty path segments of the repository URL, the join of the
origin with the segments strictly before that index.  Mirrors
`pathname.split(sep).filter(Boolean).map((_, index, array) => ...)`. -/
def gitlabApiCandidates (origin : String) (segments : List String) : List String :=
  (List.range segments.length).map (fun index => joinSlash (origin :: segments.take index))

/-- Outcome of one `Gitlab.repoBase` call: the returned base, the value
of the `_detected_base` cache afterwards, and the list of candidate
bases probed against the version endpoint during the call. -/
structure RepoBaseOutcome where
  base : String
  cache : Option String
  probed : List String
deriving DecidableEq, Repr

/-- `Gitlab.repoBase` (`src/src/drivers/github.js`): return the cache
when set; otherwise probe every candidate prefix against the
`/api/v4/version` endpoint (`responds` models which bases answer with a
version), take the first hit in index order via `find(Boolean)`, cache
it, and throw when no candidate responded. -/
def gitlabRepoBase (cache : Option String) (responds : String → Bool)
    (origin : String) (segments : List String) : Except JsError RepoBaseOutcome :=
  match cache with
  | some b => .ok { base := b, cache := some b, probed := [] }
  | none =>
    let candidates := gitlabApiCandidates origin segments
    match candidates.find? responds with
    | some b => .ok { base := b, cache := some b, probed := candidates }
    | none => .error (.error "GitLab API not found")

/-- Appending one more segment to a slash join appends a slash and the
segment. -/
theorem joinSlash_cons_append (x : String) (l : List String) (s : String) :
    joinSlash (x :: (l ++ [s])) = joinSlash (x :: l) ++ "/" ++ s := by
  induction l generalizing x with
  | nil => rfl
  | cons a t ih =>
    show x ++ "/" ++ joinSlash (a :: (t ++ [s])) = (x ++ "/" ++ joinSlash (a :: t)) ++ "/" ++ s
    rw [ih a]
    simp [String.append_assoc]

/-- A slash join strictly grows in length with one more segment. -/
theorem joinSlash_length_lt (x : String) (l : List String) (s : String) :
    (joinSlash (x :: l)).length < (joinSlash (x :: (l ++ [s]))).length := by
  rw [joinSlash_cons_append]
  have h1 : ("/" : String).length = 1 := rfl
  simp [String.length_append, h1]
  omega

/-- Candidate bases strictly grow in length with the index. -/
theorem joinSlash_take_length_lt (origin : String) (segs : List String)
    (i j : Nat) (hij : i < j) (hj : j ≤ segs.length) :
    (joinSlash (origin :: segs.take i)).length <
      (joinSlash (origin :: segs.take j)).length := by
  induction j with
  | zero => omega
  | succ k ih =>
    have hk : k < segs.length := by omega
    have hstep : (joinSlash (origin :: segs.take k)).length <
        (joinSlash (origin :: segs.take (k + 1))).length := by
      have htake : segs.take (k + 1) = segs.take k ++ [segs[k]] := by
        rw [List.take_succ]
        simp [List.getElem?_eq_getElem hk]
      rw [htake]
      exact joinSlash_length_lt origin (segs.take k) segs[k]
    rcases Nat.lt_or_ge i k with h | h
    · exact Nat.lt_trans (ih h (by omega)) hstep
    · have hik : i = k := by omega
      subst hik
      exact hstep

/-- The probed candidate list of `gitlabRepoBase` is sorted by strictly
increasing length. -/
theorem gitlabApiCandidates_pairwise (origin : String) (segs : List String) :
    (gitlabApiCandidates origin segs).Pairwise (fun a b => a.length < b.length) := by
  unfold gitlabApiCandidates
  rw [List.pairwise_map]
  refine List.Pairwise.imp_of_mem ?_ (List.pairwise_lt_range segs.length)
  intro a b ha hb hab
  exact joinSlash_take_length_lt origin segs a b hab (Nat.le_of_lt (List.mem_range.mp hb))

/-- On a list sorted by strictly increasing length, `find?` returns an
element of minimal length among those satisfying the predicate. -/
theorem find?_length_min {p : String → Bool} :
    ∀ {l : List String}, l.Pairwise (fun a b => a.length < b.length) →
      ∀ {b : String}, l.find? p = some b →
        ∀ c ∈ l, p c = true → b.length ≤ c.length := by
  intro l
  induction l with
  | nil =>
    intro _ b hb
    simp [List.find?] at hb
  | cons x t ih =>
    intro hp b hb c hc hpc
    by_cases hx : p x = true
    · rw [List.find?_cons_of_pos _ hx] at hb
      cases hb
      rcases List.mem_cons.mp hc with hcx | hct
      · subst hcx; exact Nat.le_refl _
      · exact Nat.le_of_lt ((List.pairwise_cons.mp hp).1 c hct)
    · rw [List.find?_cons_of_neg _ (by simpa using hx)] at hb
      rcases List.mem_cons.mp hc with hcx | hct
      · subst hcx; exact absurd hpc hx
      · exact ih (List.pairwise_cons.mp hp).2 hb c hct hpc

/-- C2: the automated PR source branch name is a pure deterministic
function of the target branch and the resolved commit sha, equal to
target, then the literal separator, then the first 8 characters of the
sha; equal inputs yield equal branch names, and target `main` with sha
`abcdef1234` yields `main-cml-pr-abcdef12`. -/
theorem prSourceBranch_pure_deterministic :
    (∀ t₁ s₁ t₂ s₂ : String, t₁ = t₂ → s₁ = s₂ →
      prSourceBranch t₁ s₁ = prSourceBranch t₂ s₂) ∧
    (∀ t s : String, prSourceBranch t s = t ++ "-cml-pr-" ++ s.take 8) ∧
    prSourceBranch "main" "abcdef1234" = "main-cml-pr-abcdef12" :=
  ⟨fun _ _ _ _ ht hs => by rw [ht, hs], fun _ _ => rfl, by decide⟩

/-- Witness for C2 at the concrete example inputs. -/
theorem prSourceBranch_pure_deterministic_witness :
    prSourceBranch "main" "abcdef1234" = prSourceBranch "main" "abcdef1234" :=
  prSourceBranch_pure_deterministic.1 "main" "abcdef1234" "main" "abcdef1234" rfl rfl

/-- C6: for every report body, `commentCreate` with `rmWatermark` false
passes to the driver the body with the fixed watermark appended exactly
once, and with `rmWatermark` true passes the body unchanged. -/
theorem commentCreate_watermark_shape (report : String) :
    commentCreateReport report false = report ++ watermarkString ∧
    commentCreateReport report true = report := by
  constructor
  · rfl
  · show report ++ "" = report
    simp

/-- C8: every unsupported capability throws a named does-not-support
error for every input and performs no other action: `checkCreate` on the
GitLab driver, `registerRunner` on the GitHub driver, and `upload` on
the GitHub driver. -/
theorem unsupported_capabilities_throw (opts : JsOpts) :
    githubUpload opts = .error (.error "Github does not support publish!") ∧
    githubRegisterRunner opts = .error (.error "Github does not support registerRunner!") ∧
    gitlabCheckCreate opts = .error (.error "Gitlab does not support check!") :=
  ⟨rfl, rfl, rfl⟩

/-- C4: the log normalizer maps the GitHub completion line to a
`job_ended`, success, info event; maps the GitLab JSON failure line
(parsed to msg `Job failed`, job 7) to a `job_ended`, failure, error
event carrying job 7; and produces no event for any line matching no
trigger pattern, on either driver. -/
theorem parseRunnerLog_classification :
    (∀ repo time jp,
      parseRunnerLog "github" repo time jp "Job 42 completed with result: Succeeded" =
        some { level := "info", time := time, repo := repo, job := some (.str ""),
               status := some "job_ended", success := some true }) ∧
    (∀ repo time jp data,
      jp data = some { msg := some "Job failed", job := some (.num 7) } →
      data ≠ "" →
      parseRunnerLog "gitlab" repo time jp data =
        some { level := "error", time := time, repo := repo, job := some (.num 7),
               status := some "job_ended", success := some false }) ∧
    (∀ repo time jp data,
      jsIncludes data "Running job" = false →
      jsIncludes data "completed with result" = false →
      jsIncludes data "Listening for Jobs" = false →
      parseRunnerLog "github" repo time jp data = none) ∧
    (∀ repo time jp data msg job,
      jp data = some { msg := some msg, job := job } →
      jsEndsWith msg "received" = false →
      jsStartsWith msg "Job failed" = false →
      jsStartsWith msg "Job succeeded" = false →
      jsIncludes msg "Starting runner for" = false →
      parseRunnerLog "gitlab" repo time jp data = none) := by
  refine ⟨?_, ?_, ?_, ?_⟩
  · intro repo time jp
    rfl
  · intro repo time jp data h1 h2
    unfold parseRunnerLog parseRunnerLogTry
    rw [if_neg h2, h1]
    rfl
  · intro repo time jp data h1 h2 h3
    by_cases hd : data = ""
    · subst hd; rfl
    · unfold parseRunnerLog parseRunnerLogTry
      rw [if_neg hd, h1, h2, h3]
      simp
  · intro repo time jp data msg job h1 h2 h3 h4 h5
    by_cases hd : data = ""
    · subst hd; rfl
    · unfold parseRunnerLog parseRunnerLogTry
      rw [if_neg hd, h1]
      simp [h2, h3, h4, h5]

/-- Witness for C4: the GitLab failure line evaluated with a concrete
JSON parser returning msg `Job failed` and job 7. -/
theorem parseRunnerLog_classification_witness :
    parseRunnerLog "gitlab" "r" "t"
      (fun s =>
        if s = "\x7b\"msg\":\"Job failed\",\"job\":7\x7d" then
          some { msg := some "Job failed", job := some (.num 7) }
        else none)
      "\x7b\"msg\":\"Job failed\",\"job\":7\x7d" =
      some { level := "error", time := "t", repo := "r", job := some (.num 7),
             status := some "job_ended", success := some false } :=
  parseRunnerLog_classification.2.1 "r" "t" _ _ (by simp) (by decide)

/-- C5: any error raised inside the try body of `parseRunnerLog` is
caught and a null result returned; in particular a non-JSON GitLab line
raises internally and the caller still receives null, never an error. -/
theorem parseRunnerLog_never_raises :
    (∀ driver repo time jp data e,
      parseRunnerLogTry driver repo time jp data = .error e →
      parseRunnerLog driver repo time jp data = none) ∧
    (∀ repo time jp data, jp data = none → data ≠ "" →
      (∃ e, parseRunnerLogTry "gitlab" repo time jp data = .error e) ∧
      parseRunnerLog "gitlab" repo time jp data = none) := by
  constructor
  · intro driver repo time jp data e h
    unfold parseRunnerLog
    rw [h]
  · intro repo time jp data h1 h2
    refine ⟨⟨"Unexpected token in JSON", ?_⟩, ?_⟩
    · unfold parseRunnerLogTry
      rw [if_neg h2, h1]
      rfl
    · unfold parseRunnerLog parseRunnerLogTry
      rw [if_neg h2, h1]
      rfl

/-- Witness for C5: a non-JSON line under the GitLab driver raises
internally and the call returns null. -/
theorem parseRunnerLog_never_raises_witness :
    (∃ e, parseRunnerLogTry "gitlab" "r" "t" (fun _ => none) "plain text" = .error e) ∧
    parseRunnerLog "gitlab" "r" "t" (fun _ => none) "plain text" = none :=
  parseRunnerLog_never_raises.2 "r" "t" (fun _ => none) "plain text" rfl (by decide)

/-- C7: on both drivers, `unregisterRunner` for a name with no matching
runner fails with an error raised by the failed name resolution rather
than succeeding silently; when a match exists it resolves the name to
the platform id and issues the platform delete with that id. -/
theorem unregisterRunner_not_found_fails :
    (∀ platform owner repo name, githubRunnerByName platform name = none →
      githubUnregisterRunner platform owner repo name =
        .error (.typeError "Cannot destructure property id of undefined")) ∧
    (∀ platform owner repo name r, githubRunnerByName platform name = some r →
      githubUnregisterRunner platform owner (some repo) name =
        .ok (.fromRepo owner repo r.id) ∧
      githubUnregisterRunner platform owner none name = .ok (.fromOrg owner r.id)) ∧
    (∀ platform name, gitlabRunnerByName platform name = none →
      gitlabUnregisterRunner platform name =
        .error (.typeError "Cannot destructure property id of undefined")) ∧
    (∀ platform name r, gitlabRunnerByName platform name = some r →
      gitlabUnregisterRunner platform name = .ok ("/runners/" ++ toString r.id)) := by
  refine ⟨?_, ?_, ?_, ?_⟩
  · intro platform owner repo name h
    unfold githubUnregisterRunner
    rw [h]
  · intro platform owner repo name r h
    constructor <;> (unfold githubUnregisterRunner; rw [h])
  · intro platform name h
    unfold gitlabUnregisterRunner
    rw [h]
  · intro platform name r h
    unfold gitlabUnregisterRunner
    rw [h]

/-- Witness for C7: on an empty platform listing both drivers fail for a
missing name, and with a matching runner present the resolved id is
deleted. -/
theorem unregisterRunner_not_found_fails_witness :
    githubUnregisterRunner [] "octo" none "ghost" =
      .error (.typeError "Cannot destructure property id of undefined") ∧
    gitlabUnregisterRunner [] "ghost" =
      .error (.typeError "Cannot destructure property id of undefined") ∧
    gitlabUnregisterRunner [{ id := 9, name := "r1", description := "d", tagList := [] }]
        "r1" = .ok "/runners/9" :=
  ⟨unregisterRunner_not_found_fails.1 [] "octo" none "ghost" rfl,
   unregisterRunner_not_found_fails.2.2.1 [] "ghost" rfl,
   unregisterRunner_not_found_fails.2.2.2
     [{ id := 9, name := "r1", description := "d", tagList := [] }] "r1"
     { id := 9, name := "r1" } rfl⟩

/-- C10: every runner lookup on both drivers fetches a single page of at
most 100 runners and paginates no further: a name whose only bearer sits
past the first hundred entries of the platform listing is never found,
and every label query result comes from the first hundred entries. -/
theorem runner_lookups_single_page :
    (∀ platform name, (∀ r ∈ platform.take 100, ¬r.name = name) →
      githubRunnerByName platform name = none) ∧
    (∀ platform labels r, r ∈ githubRunnersByLabels platform labels →
      ∃ gr ∈ platform.take 100, gr.id = r.id ∧ gr.name = r.name) ∧
    (∀ platform name,
      (∀ r ∈ platform.take 100, ¬r.name = name ∧ ¬r.description = name) →
      gitlabRunnerByName platform name = none) ∧
    (∀ platform labels r, r ∈ gitlabRunnersByLabels platform labels →
      ∃ gr ∈ platform.take 100, gr.id = r.id ∧ gr.name = r.name) := by
  refine ⟨?_, ?_, ?_, ?_⟩
  · intro platform name h
    unfold githubRunnerByName githubGetRunners
    have hf : (platform.take 100).filter (fun r => r.name == name) = [] := by
      rw [List.filter_eq_nil_iff]
      intro r hr
      simpa using h r hr
    rw [hf]
  · intro platform labels r hr
    unfold githubRunnersByLabels githubGetRunners at hr
    rcases List.mem_map.mp hr with ⟨gr, hgr, hmap⟩
    exact ⟨gr, List.mem_of_mem_filter hgr, by rw [← hmap], by rw [← hmap]⟩
  · intro platform name h
    unfold gitlabRunnerByName gitlabListRunners
    have hf : (platform.take 100).filter
        (fun r => r.name == name || r.description == name) = [] := by
      rw [List.filter_eq_nil_iff]
      intro r hr
      simpa using h r hr
    rw [hf]
  · intro platform labels r hr
    unfold gitlabRunnersByLabels gitlabListRunners at hr
    rcases List.mem_map.mp hr with ⟨gr, hgr, hmap⟩
    exact ⟨gr, hgr, by rw [← hmap], by rw [← hmap]⟩

/-- Witness for C10: a platform listing of one hundred filler runners
followed by the sought runner; the lookup returns nothing although the
runner exists in the listing. -/
theorem runner_lookups_single_page_witness :
    (∃ r ∈ List.replicate 100 ({ id := 0, name := "filler", labels := [] } : GhRunner) ++
        [{ id := 7, name := "sought", labels := [] }], r.name = "sought") ∧
    githubRunnerByName
      (List.replicate 100 ({ id := 0, name := "filler", labels := [] } : GhRunner) ++
        [{ id := 7, name := "sought", labels := [] }]) "sought" = none := by
  constructor
  · exact ⟨{ id := 7, name := "sought", labels := [] }, by simp, rfl⟩
  · apply runner_lookups_single_page.1
    intro r hr
    rw [List.take_left' (by simp)] at hr
    rw [List.eq_of_mem_replicate hr]
    simp

/-- C3: divergence of the GitLab driver from AND/superset label
semantics.  A platform listing holding one runner tagged `a` alone,
queried for labels `a,b`, is returned anyway by `gitlabRunnersByLabels`:
the method applies no client-side filter and its malformed query string
never transmits `tag_list`, so no filter is applied server-side either.
The GitHub driver, queried the same way, does implement the superset
semantics and excludes the runner tagged `a` alone. -/
theorem runnersByLabels_and_semantics_divergence :
    gitlabRunnersByLabels
        [{ id := 1, name := "only-a", description := "", tagList := ["a"] }] "a,b" =
      [{ id := 1, name := "only-a" }] ∧
    ("b" ∈ ({ id := 1, name := "only-a", description := "",
              tagList := ["a"] } : GlRunner).tagList → False) ∧
    githubRunnersByLabels
        [{ id := 11, name := "gh-only-a", labels := [{ name := "a" }] },
         { id := 12, name := "gh-a-b", labels := [{ name := "a" }, { name := "b" }] }]
        "a,b" =
      [{ id := 12, name := "gh-a-b" }] := by
  decide

/-- C1: when the derived source branch already exists on the remote and
the open PR list holds an entry matching source and target, `prCreate`
returns the URL of that entry and does not create a second PR; rerunning
on the unchanged environment therefore returns the same URL. -/
theorem prCreate_idempotent_existing_pr (driver : String) (env : PrEnv)
    (hfiles : env.statusFiles.isEmpty = false)
    (hpaths : (env.globbed.filter (fun p => env.statusFiles.contains p)).isEmpty = false)
    (hbranch : jsIncludes env.lsRemoteOut (prSourceBranch env.target env.sha) = true)
    (hmatch : ∃ pr ∈ env.prs,
      jsEndsWith (prSourceBranch env.target env.sha) pr.source = true ∧
      jsEndsWith env.target pr.target = true) :
    ∃ pr ∈ env.prs,
      jsEndsWith (prSourceBranch env.target env.sha) pr.source = true ∧
      jsEndsWith env.target pr.target = true ∧
      prCreate driver false env = { result := some pr.url, prCreated := false } := by
  have hex : ∃ x ∈ env.prs,
      (fun pr => jsEndsWith (prSourceBranch env.target env.sha) pr.source &&
        jsEndsWith env.target pr.target) x = true := by
    rcases hmatch with ⟨pr, hmem, hs, ht⟩
    exact ⟨pr, hmem, by simp [hs, ht]⟩
  have hsome : (env.prs.find? (fun pr =>
      jsEndsWith (prSourceBranch env.target env.sha) pr.source &&
        jsEndsWith env.target pr.target)).isSome := by
    rw [List.find?_isSome]
    rcases hex with ⟨x, hx, hpx⟩
    exact ⟨x, hx, hpx⟩
  rcases Option.isSome_iff_exists.mp hsome with ⟨pr, hfind⟩
  have hp := List.find?_some hfind
  have hmem := List.mem_of_find?_eq_some hfind
  rcases Bool.and_eq_true_iff.mp hp with ⟨hs, ht⟩
  refine ⟨pr, hmem, hs, ht, ?_⟩
  have hne : List.filter (fun p => env.statusFiles.contains p) env.globbed ≠ [] := by
    intro h0
    rw [h0] at hpaths
    simp at hpaths
  rcases List.exists_mem_of_ne_nil _ hne with ⟨x, hx⟩
  have hxf := List.mem_filter.mp hx
  unfold prCreate
  simp [hfiles, hpaths, hbranch, hfind, renderPr]
  exact ⟨x, hxf.1, by simpa using hxf.2⟩

/-- Witness for C1: a concrete environment where the derived branch
`main-cml-pr-abcdef12` is on the remote and an open PR matches; the run
returns that URL of the existing PR and creates nothing. -/
theorem prCreate_idempotent_existing_pr_witness :
    ∃ pr ∈ ([{ url := "https://example.com/pr/1", source := "main-cml-pr-abcdef12",
               target := "main" }] : List Pr),
      jsEndsWith (prSourceBranch "main" "abcdef1234567") pr.source = true ∧
      jsEndsWith "main" pr.target = true ∧
      prCreate "github" false
          { statusFiles := ["dvc.lock"], globbed := ["dvc.lock"],
            sha := "abcdef1234567", target := "main",
            lsRemoteOut := "f00f refs/heads/main-cml-pr-abcdef12",
            prs := [{ url := "https://example.com/pr/1",
                      source := "main-cml-pr-abcdef12", target := "main" }],
            driverCreateUrl := "https://example.com/pr/new" } =
        { result := some pr.url, prCreated := false } :=
  prCreate_idempotent_existing_pr "github"
    { statusFiles := ["dvc.lock"], globbed := ["dvc.lock"],
      sha := "abcdef1234567", target := "main",
      lsRemoteOut := "f00f refs/heads/main-cml-pr-abcdef12",
      prs := [{ url := "https://example.com/pr/1",
                source := "main-cml-pr-abcdef12", target := "main" }],
      driverCreateUrl := "https://example.com/pr/new" }
    rfl (by decide) (by decide)
    ⟨{ url := "https://example.com/pr/1", source := "main-cml-pr-abcdef12",
       target := "main" }, by simp, by decide, by decide⟩

/-- C9: GitLab API base discovery probes the path prefixes of the
repository URL and returns the shortest responding prefix; a repository
URL two segments longer than its true API root yields that root; the
result is cached, and a later call returns the cached base with no
probing; when no prefix responds the call fails with an error. -/
theorem gitlabRepoBase_discovery_spec :
    (∀ (responds : String → Bool) (origin s₁ s₂ : String),
      responds origin = true →
      gitlabRepoBase none responds origin [s₁, s₂] =
        .ok { base := origin, cache := some origin,
              probed := [origin, origin ++ "/" ++ s₁] }) ∧
    (∀ (responds : String → Bool) (origin : String) (segs : List String)
        (out : RepoBaseOutcome),
      gitlabRepoBase none responds origin segs = .ok out →
      out.base ∈ gitlabApiCandidates origin segs ∧ responds out.base = true ∧
      ∀ c ∈ gitlabApiCandidates origin segs, responds c = true →
        out.base.length ≤ c.length) ∧
    (∀ (responds responds₂ : String → Bool) (origin : String) (segs : List String)
        (out : RepoBaseOutcome),
      gitlabRepoBase none responds origin segs = .ok out →
      gitlabRepoBase out.cache responds₂ origin segs =
        .ok { base := out.base, cache := out.cache, probed := [] }) ∧
    (∀ (responds : String → Bool) (origin : String) (segs : List String),
      (gitlabApiCandidates origin segs).find? responds = none →
      gitlabRepoBase none responds origin segs =
        .error (.error "GitLab API not found")) := by
  refine ⟨?_, ?_, ?_, ?_⟩
  · intro responds origin s₁ s₂ h
    have hc : gitlabApiCandidates origin [s₁, s₂] = [origin, origin ++ "/" ++ s₁] := rfl
    simp only [gitlabRepoBase, hc]
    rw [List.find?_cons_of_pos _ h]
  · intro responds origin segs out h
    simp only [gitlabRepoBase] at h
    rcases hfind : (gitlabApiCandidates origin segs).find? responds with _ | b
    · rw [hfind] at h
      exact absurd h (by simp)
    · rw [hfind] at h
      cases h
      refine ⟨List.mem_of_find?_eq_some hfind, List.find?_some hfind, ?_⟩
      intro c hc hpc
      exact find?_length_min (gitlabApiCandidates_pairwise origin segs) hfind c hc hpc
  · intro responds responds₂ origin segs out h
    simp only [gitlabRepoBase] at h
    rcases hfind : (gitlabApiCandidates origin segs).find? responds with _ | b
    · rw [hfind] at h
      exact absurd h (by simp)
    · rw [hfind] at h
      cases h
      rfl
  · intro responds origin segs h
    simp only [gitlabRepoBase]
    rw [h]

/-- Witness for C9: a host origin that answers the version probe, with a
repository URL two path segments deeper; discovery returns the origin
after probing the two candidate prefixes in length order. -/
theorem gitlabRepoBase_discovery_spec_witness :
    gitlabRepoBase none (fun s => s == "https://gl.example.com")
        "https://gl.example.com" ["group", "project"] =
      .ok { base := "https://gl.example.com", cache := some "https://gl.example.com",
            probed := ["https://gl.example.com", "https://gl.example.com" ++ "/" ++ "group"] } :=
  gitlabRepoBase_discovery_spec.1 (fun s => s == "https://gl.example.com")
    "https://gl.example.com" "group" "project" (by decide)
